import Mathlib

/-!
Verification of the `lightning-Hivemind` strategy adapter
(`src/lightning_hivemind/strategy.py`) via a shallow embedding.

The repository is pure glue code around two external libraries (the
`hivemind` peer-to-peer optimizer and the Lightning trainer), so the
embedding models exactly the logic this repository itself contains:
initial-peer resolution from the environment, the lazy one-time
optimizer construction, the scheduler shim's catch-up loop, the no-op
collectives, and teardown ordering.  External calls (DHT construction,
`hivemind.Optimizer`, `load_state_from_peers`, shutdowns) are recorded
as abstract events; values that Python treats only through truthiness
or identity (callables, optimizer objects, hooks) are represented by
abstract tokens.
-/

namespace LightningHivemind

/-- A Python value accepted for the `initial_peers` argument of
`HivemindStrategy.__init__`: `None`, a string, or a list of strings. -/
inductive PyPeers where
  | pyNone : PyPeers
  | pyStr : String → PyPeers
  | pyList : List String → PyPeers
deriving DecidableEq, Repr

/-- Helper for `splitComma`: walks the character list, cutting at every
comma; `acc` holds the characters of the current field in reverse. -/
def splitCommaAux : List Char → List Char → List String
  | [], acc => [String.mk acc.reverse]
  | c :: cs, acc =>
    if c = ',' then String.mk acc.reverse :: splitCommaAux cs []
    else splitCommaAux cs (c :: acc)

/-- Python `s.split(",")`: splits on every comma, keeping empty fields,
so the empty string yields `[""]`.  (The separator is the single
character `,`, so splitting on the one-character string and on the
character agree.) -/
def splitComma (s : String) : List String := splitCommaAux s.data []

/-- Embedding of `HivemindStrategy._parse_env_initial_peers` (strategy.py
lines 215-217):

    initial_peers = os.environ.get(self.INITIAL_PEERS_ENV, self._initial_peers)
    self._initial_peers = initial_peers.split(",") if isinstance(initial_peers, str) else self._initial_peers

`env` is the value of the `PL_INITIAL_PEERS` environment variable
(`none` when unset); `self_initial_peers` is the `_initial_peers` field,
which at the call site still holds the raw constructor argument.  The
result is the new value of `_initial_peers`. -/
def parse_env_initial_peers (env : Option String) (self_initial_peers : PyPeers) : PyPeers :=
  let initial_peers : PyPeers :=
    match env with
    | some v => PyPeers.pyStr v
    | none => self_initial_peers
  match initial_peers with
  | PyPeers.pyStr s => PyPeers.pyList (splitComma s)
  | _ => self_initial_peers

/-- The observable effects of the networking part of
`HivemindStrategy.__init__` (strategy.py lines 164, 186-213) on the peer
configuration: the `_initial_peers` field after `_parse_env_initial_peers`,
the `initial_peers` value handed to the `hivemind.DHT` constructor, and
whether the "Other machines can connect" message was logged. -/
structure CtorNetResult where
  strategy_initial_peers : PyPeers
  dht_initial_peers : PyPeers
  logged_visible_addresses : Bool
deriving DecidableEq, Repr

/-- Embedding of the peer handling inside `HivemindStrategy.__init__`:

    self._initial_peers = initial_peers
    ...
    self._parse_env_initial_peers()
    self.dht = hivemind.DHT(..., initial_peers=initial_peers, ...)
    ...
    if initial_peers is None:
        log.info("\nOther machines can connect running the same command: ...")

Note the DHT receives the local variable `initial_peers` (the raw
constructor argument), not the parsed `self._initial_peers`, and the log
condition also tests the raw argument. -/
def strategy_ctor_peers (env : Option String) (initial_peers : PyPeers) : CtorNetResult :=
  let self_initial_peers := initial_peers
  let self_initial_peers := parse_env_initial_peers env self_initial_peers
  { strategy_initial_peers := self_initial_peers
    dht_initial_peers := initial_peers
    logged_visible_addresses :=
      match initial_peers with
      | PyPeers.pyNone => true
      | _ => false }

/-- Truthiness of a Python `Optional[bool]` value: `None` and `False`
are falsy, `True` is truthy. -/
def pyTruthy : Option Bool → Bool
  | none => false
  | some b => b

/-- Embedding of strategy.py line 168:

    self._require_scheduler_fn = delay_optimizer_step or delay_state_averaging or offload_optimizer

We record the truthiness of the resulting `or`-chain (the field is only
ever used in boolean position).  `delay_grad_averaging` is a parameter
of `__init__` but is NOT consulted by this line; it is kept as an
argument to document that fact. -/
def require_scheduler_fn_of (delay_optimizer_step : Option Bool) (delay_state_averaging : Bool)
    (delay_grad_averaging : Bool) (offload_optimizer : Option Bool) : Bool :=
  pyTruthy delay_optimizer_step || delay_state_averaging || pyTruthy offload_optimizer

/-- Embedding of the `averager_opts` entry of `self._optimizer_kwargs`
(strategy.py line 180):

    averager_opts=averager_opts if averaging_timeout is not None else {"request_timeout": 1.0}

Option dictionaries are modelled as key/value lists with rational
values (no float arithmetic is performed on them; only `is not None`
is tested on `averaging_timeout`). -/
def forwarded_averager_opts (averaging_timeout : Option Rat)
    (averager_opts : Option (List (String × Rat))) : Option (List (String × Rat)) :=
  match averaging_timeout with
  | some _ => averager_opts
  | none => some [("request_timeout", 1)]

/-- An optimizer object as seen by the adapter: either a torch optimizer
registered with the trainer (identified by a token) or an externally
constructed `hivemind.Optimizer` wrapping one. -/
inductive OptRef where
  | torch : Nat → OptRef
  | hivemindOpt : OptRef → OptRef
deriving DecidableEq, Repr

/-- A learning-rate scheduler config registered with the trainer:
whether its scheduler is a `ReduceLROnPlateau` instance, and whether it
has been replaced by the `HiveMindScheduler` shim. -/
structure SchedulerConfig where
  isReduceLROnPlateau : Bool
  wrapped : Bool
deriving DecidableEq, Repr

/-- The mutable strategy/trainer state touched by `_initialize_hivemind`,
`on_train_batch_start`, `_disable_zero_grad` and `teardown`.  The
lightning module's `optimizer_zero_grad` hook is a bound method in
Python; it is modelled as `Option Nat` (`some` = a hook implementation
token, `none` = the hook was set to `None`). -/
structure SState where
  optimizers : List OptRef
  lr_scheduler_configs : List SchedulerConfig
  scheduler_fn : Option Nat
  require_scheduler_fn : Bool
  batch_size : Option Nat
  reuse_grad_buffers : Bool
  hivemind_initialized : Bool
  opt : Option OptRef
  optimizer_zero_grad : Option Nat
  optimizer_zero_grad_original : Option Nat
  zero_grad_overridden : Bool
deriving DecidableEq, Repr

/-- Errors raised by the initialization path. -/
inductive InitError where
  | onlyOneOptimizer
  | indexError
  | reduceLROnPlateauUnsupported
deriving DecidableEq, Repr

/-- Warnings emitted and external calls performed, in program order. -/
inductive Event where
  | warnSchedulerFn
  | warnZeroGradOverridden
  | constructOptimizer
  | loadStateFromPeers
  | optShutdown
  | dhtShutdown
deriving DecidableEq, Repr

/-- Result of running (a piece of) the initialization path: the state at
exit (at the raise point when an exception escapes, matching Python's
mutate-in-place semantics), the events emitted so far, and the escaped
exception, if any. -/
structure InitResult where
  state : SState
  events : List Event
  error : Option InitError
deriving DecidableEq, Repr

/-- Embedding of `HivemindStrategy._wrap_schedulers` (strategy.py lines
298-306): walks the scheduler configs in order, raising `ValueError` on
a `ReduceLROnPlateau` scheduler and otherwise replacing the scheduler
with the `HiveMindScheduler` shim.  Returns the configs after the loop
(earlier configs stay wrapped when a later one raises, matching the
in-place mutation) and whether the `ValueError` was raised. -/
def wrap_schedulers : List SchedulerConfig → List SchedulerConfig × Bool
  | [] => ([], false)
  | cfg :: rest =>
    if cfg.isReduceLROnPlateau then (cfg :: rest, true)
    else
      let r := wrap_schedulers rest
      ({ cfg with wrapped := true } :: r.1, r.2)

/-- Embedding of `HivemindStrategy._disable_zero_grad` (strategy.py lines
286-296): warns when the user overrode `optimizer_zero_grad`, then sets
the hook to `None`. -/
def disable_zero_grad (s : SState) : SState × List Event :=
  let evs := if s.zero_grad_overridden then [Event.warnZeroGradOverridden] else []
  ({ s with optimizer_zero_grad := none }, evs)

/-- Embedding of `HivemindStrategy._initialize_hivemind` (strategy.py
lines 249-284), in source order:

1. raise `MisconfigurationException` when more than one optimizer is
   registered (`indexError` models Python's `self.optimizers[0]` on an
   empty list);
2. warn when `self._require_scheduler_fn and self._scheduler_fn is
   None`;
3. construct the `hivemind.Optimizer` (recorded as the
   `constructOptimizer` event; the `scheduler`/`params`/`type(optimizer)`
   locals at lines 261-263 only shape that external call);
4. when `not self._scheduler_fn`, run `_wrap_schedulers`, which may
   raise `ValueError`;
5. call `opt.load_state_from_peers()`;
6. replace the trainer's optimizer list with `[opt]` and set `_opt`;
7. when `reuse_grad_buffers`, save the original `optimizer_zero_grad`
   hook and run `_disable_zero_grad`. -/
def init_hivemind (s : SState) : InitResult :=
  if s.optimizers.length > 1 then
    { state := s, events := [], error := some InitError.onlyOneOptimizer }
  else
    match s.optimizers with
    | [] => { state := s, events := [], error := some InitError.indexError }
    | optimizer :: _ =>
      let events :=
        if s.require_scheduler_fn && s.scheduler_fn.isNone then [Event.warnSchedulerFn] else []
      let opt := OptRef.hivemindOpt optimizer
      let events := events ++ [Event.constructOptimizer]
      let wrapRes :=
        if s.scheduler_fn.isNone then wrap_schedulers s.lr_scheduler_configs
        else (s.lr_scheduler_configs, false)
      let s1 := { s with lr_scheduler_configs := wrapRes.1 }
      if wrapRes.2 then
        { state := s1, events := events, error := some InitError.reduceLROnPlateauUnsupported }
      else
        let events := events ++ [Event.loadStateFromPeers]
        let s2 := { s1 with optimizers := [opt], opt := some opt }
        if s2.reuse_grad_buffers then
          let s3 := { s2 with optimizer_zero_grad_original := s2.optimizer_zero_grad }
          let dz := disable_zero_grad s3
          { state := dz.1, events := events ++ dz.2, error := none }
        else
          { state := s2, events := events, error := none }

/-- Errors escaping `on_train_batch_start`. -/
inductive RunError where
  | batchSizeNotInferred
  | initErr : InitError → RunError
deriving DecidableEq, Repr

/-- Embedding of `HivemindStrategy.on_train_batch_start` (strategy.py
lines 308-323).  `batchExtract` abstracts the batch by the outcome of
`extract_batch_size(batch)` on it: `some b` on success, `none` when it
raises one of the two caught exception kinds, in which case the hook
re-raises a `MisconfigurationException` asking for an explicit batch
size.  Note `_hivemind_initialized` is set before the inference attempt,
so it stays `True` even when the error escapes. -/
def on_train_batch_start (s : SState) (batchExtract : Option Nat) :
    SState × List Event × Option RunError :=
  if s.hivemind_initialized then (s, [], none)
  else
    let s := { s with hivemind_initialized := true }
    match s.batch_size, batchExtract with
    | none, none => (s, [], some RunError.batchSizeNotInferred)
    | none, some b =>
      let s := { s with batch_size := some b }
      let r := init_hivemind s
      (r.state, r.events, r.error.map RunError.initErr)
    | some _, _ =>
      let r := init_hivemind s
      (r.state, r.events, r.error.map RunError.initErr)

/-- A training run: `on_train_batch_start` is invoked once per batch,
halting when an exception escapes.  Returns the final state, the
concatenated events, and the escaped error, if any. -/
def run_batches (s : SState) : List (Option Nat) → SState × List Event × Option RunError
  | [] => (s, [], none)
  | b :: bs =>
    let r := on_train_batch_start s b
    match r.2.2 with
    | some e => (r.1, r.2.1, some e)
    | none =>
      let rest := run_batches r.1 bs
      (rest.1, r.2.1 ++ rest.2.1, rest.2.2)

/-- Embedding of `HivemindStrategy.teardown` (strategy.py lines 341-352):
restore the zero-grad hook when an original was saved, shut down the
optimizer when one was constructed (`if self._opt:`), then shut down the
DHT.  (The lightning module is present whenever a hook restore is
pending, since the original was read off it.) -/
def teardown (s : SState) : SState × List Event :=
  let s1 :=
    match s.optimizer_zero_grad_original with
    | some orig => { s with optimizer_zero_grad := some orig }
    | none => s
  let evs :=
    match s1.opt with
    | some _ => [Event.optShutdown]
    | none => []
  (s1, evs ++ [Event.dhtShutdown])

/-- Embedding of `HivemindStrategy.reduce` (strategy.py lines 325-326):
returns its `tensor` argument unchanged. -/
def HivemindStrategy.reduce {α : Type} (tensor : α) : α := tensor

/-- Embedding of `HivemindStrategy.all_gather` (strategy.py lines
328-329): returns its `tensor` argument unchanged. -/
def HivemindStrategy.all_gather {α : Type} (tensor : α) : α := tensor

/-- Embedding of `HivemindStrategy.broadcast` (strategy.py lines
338-339): returns its `obj` argument unchanged. -/
def HivemindStrategy.broadcast {α : Type} (obj : α) : α := obj

/-- Embedding of `HivemindStrategy.barrier` (strategy.py lines 335-336):
the body is `pass`, so the strategy state is untouched. -/
def HivemindStrategy.barrier (s : SState) : SState := s

/-- State of the `HiveMindScheduler` shim (strategy.py lines 355-381).
Only `current_step` is relevant to the stepping logic; the `__dict__`
copy in `__init__` merely mirrors cosmetic scheduler attributes and the
wrapped scheduler is an external object whose `step` calls we record. -/
structure HiveMindScheduler where
  current_step : Int
deriving DecidableEq, Repr

/-- `HiveMindScheduler.__init__` sets `self.current_step = -1`
(strategy.py line 370). -/
def HiveMindScheduler.initial : HiveMindScheduler := ⟨-1⟩

/-- The `while` loop of `HiveMindScheduler.step` (strategy.py lines
373-375):

    while self.current_step < self.optimizer.local_epoch:
        self.scheduler.step(epoch=epoch)
        self.current_step += 1

Returns the final `current_step` together with the list of global-step
values the forwarded `self.scheduler.step` calls account for (each
forwarded call is tagged with the `current_step` value recorded right
after it, i.e. the global step it catches up to).  The `epoch` argument
is forwarded verbatim to the wrapped scheduler and does not influence
the loop, so it is omitted. -/
def stepLoop (current_step : Int) (local_epoch : Int) : Int × List Int :=
  if current_step < local_epoch then
    let r := stepLoop (current_step + 1) local_epoch
    (r.1, (current_step + 1) :: r.2)
  else
    (current_step, [])
termination_by (local_epoch - current_step).toNat
decreasing_by simp_wf; omega

/-- `HiveMindScheduler.step`, reading the optimizer's `local_epoch` at
call time: returns the shim state after the call and the forwarded
scheduler steps. -/
def HiveMindScheduler.step (self : HiveMindScheduler) (local_epoch : Int) :
    HiveMindScheduler × List Int :=
  let r := stepLoop self.current_step local_epoch
  (⟨r.1⟩, r.2)

/-- A sequence of calls to the shim's `step`, one entry of `es` per
call, each entry being the optimizer's `local_epoch` observed by that
call.  Returns the final shim state and the concatenation of all
forwarded scheduler steps. -/
def runScheduler : HiveMindScheduler → List Int → HiveMindScheduler × List Int
  | s, [] => (s, [])
  | s, e :: es =>
    let r := s.step e
    let rest := runScheduler r.1 es
    (rest.1, r.2 ++ rest.2)

theorem stepLoop_props (n : Nat) : ∀ c e : Int, (e - c).toNat = n →
    (stepLoop c e).1 = max c e ∧
    (∀ x ∈ (stepLoop c e).2, c < x ∧ x ≤ e) ∧
    (stepLoop c e).2.Nodup ∧
    (stepLoop c e).2.length = (e - c).toNat := by
  induction n with
  | zero =>
    intro c e hn
    have hce : ¬ c < e := by omega
    rw [stepLoop, if_neg hce]
    refine ⟨by omega, by simp, by simp, by simpa using hn.symm⟩
  | succ n ih =>
    intro c e hn
    have hce : c < e := by omega
    have hn' : (e - (c + 1)).toNat = n := by omega
    obtain ⟨ih1, ih2, ih3, ih4⟩ := ih (c + 1) e hn'
    rw [stepLoop, if_pos hce]
    refine ⟨?_, ?_, ?_, ?_⟩
    · simpa using by omega
    · intro x hx
      rcases List.mem_cons.mp hx with h | h
      · omega
      · have := ih2 x h
        omega
    · refine List.nodup_cons.mpr ⟨fun hmem => ?_, ih3⟩
      have := ih2 _ hmem
      omega
    · simp only [List.length_cons, ih4]
      omega

theorem stepLoop_fst (c e : Int) : (stepLoop c e).1 = max c e :=
  (stepLoop_props (e - c).toNat c e rfl).1

/-- In a non-decreasing chain, the head is at most the last element. -/
theorem chain_head_le_getLastD : ∀ (es : List Int) (c : Int),
    List.Chain' (fun a b => a ≤ b) (c :: es) → c ≤ es.getLastD c := by
  intro es
  induction es with
  | nil => intro c _; simp
  | cons e es ih =>
    intro c h
    rw [List.chain'_cons] at h
    have := ih e h.2
    calc c ≤ e := h.1
      _ ≤ es.getLastD e := this
      _ = (e :: es).getLastD c := (List.getLastD_cons c e es).symm

theorem runScheduler_props : ∀ (es : List Int) (c : Int),
    List.Chain' (fun a b => a ≤ b) (c :: es) →
    (runScheduler ⟨c⟩ es).1.current_step = es.getLastD c ∧
    (∀ x ∈ (runScheduler ⟨c⟩ es).2, c < x ∧ x ≤ es.getLastD c) ∧
    (runScheduler ⟨c⟩ es).2.Nodup ∧
    (runScheduler ⟨c⟩ es).2.length = (es.getLastD c - c).toNat := by
  intro es
  induction es with
  | nil =>
    intro c _
    refine ⟨rfl, by simp [runScheduler], by simp [runScheduler], by simp [runScheduler]⟩
  | cons e es ih =>
    intro c h
    rw [List.chain'_cons] at h
    obtain ⟨hce, hchain⟩ := h
    have heL : e ≤ es.getLastD e := chain_head_le_getLastD es e hchain
    obtain ⟨sl1, sl2, sl3, sl4⟩ := stepLoop_props (e - c).toNat c e rfl
    have hstep : (HiveMindScheduler.step ⟨c⟩ e).1 = (⟨e⟩ : HiveMindScheduler) := by
      simp only [HiveMindScheduler.step, sl1]
      congr 1
      omega
    obtain ⟨ih1, ih2, ih3, ih4⟩ := ih e hchain
    have hfst : (stepLoop c e).1 = e := by
      rw [sl1]; exact max_eq_right hce
    have hrun : runScheduler ⟨c⟩ (e :: es) =
        ((runScheduler ⟨e⟩ es).1, (stepLoop c e).2 ++ (runScheduler ⟨e⟩ es).2) := by
      simp only [runScheduler, hstep, HiveMindScheduler.step, hfst]
    have hlast : (e :: es).getLastD c = es.getLastD e := List.getLastD_cons c e es
    rw [hrun, hlast]
    refine ⟨ih1, ?_, ?_, ?_⟩
    · intro x hx
      rcases List.mem_append.mp hx with hmem | hmem
      · have := sl2 x hmem
        omega
      · have := ih2 x hmem
        omega
    · refine List.Nodup.append sl3 ih3 ?_
      intro x hx1 hx2
      have h1 := sl2 x hx1
      have h2 := ih2 x hx2
      omega
    · rw [List.length_append, sl4, ih4]
      omega

/-- A strategy state as training begins: the fields `__init__` leaves
behind plus the trainer-registered optimizers and scheduler configs; the
hivemind optimizer is not yet constructed and the zero-grad hook holds
its original implementation (token `0`). -/
def fresh_state (optimizers : List OptRef) (cfgs : List SchedulerConfig)
    (scheduler_fn : Option Nat) (require_fn : Bool) (batch_size : Option Nat)
    (reuse : Bool) (overridden : Bool) : SState :=
  { optimizers := optimizers
    lr_scheduler_configs := cfgs
    scheduler_fn := scheduler_fn
    require_scheduler_fn := require_fn
    batch_size := batch_size
    reuse_grad_buffers := reuse
    hivemind_initialized := false
    opt := none
    optimizer_zero_grad := some 0
    optimizer_zero_grad_original := none
    zero_grad_overridden := overridden }

/-- Once `_hivemind_initialized` is set, `on_train_batch_start` is a
no-op, so the rest of a run changes nothing and emits nothing. -/
theorem run_batches_of_initialized (s : SState) (h : s.hivemind_initialized = true) :
    ∀ bs, run_batches s bs = (s, [], none) := by
  intro bs
  induction bs with
  | nil => rfl
  | cons b bs ih =>
    have hstep : on_train_batch_start s b = (s, [], none) := by
      simp [on_train_batch_start, h]
    simp [run_batches, hstep, ih]

/-- `_wrap_schedulers` raises the `ValueError` exactly when some config
holds a `ReduceLROnPlateau` scheduler. -/
theorem wrap_schedulers_snd (l : List SchedulerConfig) :
    (wrap_schedulers l).2 = l.any fun c => c.isReduceLROnPlateau := by
  induction l with
  | nil => rfl
  | cons c rest ih =>
    cases hc : c.isReduceLROnPlateau with
    | true => simp [wrap_schedulers, hc]
    | false => simp [wrap_schedulers, hc, ih]

/-- C1 (counterexample): the claim says the environment-variable peer
list is used only when no explicit peer list was passed to the
constructor.  In the code, `os.environ.get(ENV, self._initial_peers)`
gives the environment variable precedence whenever it is set: with
`PL_INITIAL_PEERS=envA,envB` and an explicit list `["explicitPeer"]`,
the parsed `_initial_peers` is the split environment value, not the
explicit list. -/
theorem C1_counterexample :
    parse_env_initial_peers (some "envA,envB") (PyPeers.pyList ["explicitPeer"]) =
      PyPeers.pyList ["envA", "envB"] ∧
    PyPeers.pyList (["envA", "envB"] : List String) ≠ PyPeers.pyList ["explicitPeer"] := by
  decide

/-- C1 (amended): the resolution order is environment variable first:
whenever the environment variable is set, `_initial_peers` becomes its
value split on comma, regardless of any explicit constructor argument;
only when the environment variable is unset is the constructor argument
used — itself split on comma when it is a string, and kept unchanged
otherwise. -/
theorem C1_env_precedence (env : Option String) (p : PyPeers) :
    (∀ v, env = some v → parse_env_initial_peers env p = PyPeers.pyList (splitComma v)) ∧
    (env = none → ∀ s, p = PyPeers.pyStr s →
      parse_env_initial_peers env p = PyPeers.pyList (splitComma s)) ∧
    (env = none → (∀ s, p ≠ PyPeers.pyStr s) → parse_env_initial_peers env p = p) := by
  refine ⟨?_, ?_, ?_⟩
  · intro v hv
    subst hv
    rfl
  · intro he s hp
    subst he
    subst hp
    rfl
  · intro he hs
    subst he
    cases p with
    | pyNone => rfl
    | pyStr s => exact absurd rfl (hs s)
    | pyList l => rfl

theorem C1_env_precedence_witness :
    parse_env_initial_peers (some "a,b") (PyPeers.pyList ["x"]) = PyPeers.pyList ["a", "b"] ∧
    parse_env_initial_peers none (PyPeers.pyStr "c,d") = PyPeers.pyList ["c", "d"] ∧
    parse_env_initial_peers none (PyPeers.pyList ["x"]) = PyPeers.pyList ["x"] := by
  refine ⟨?_, ?_, ?_⟩
  · rw [(C1_env_precedence (some "a,b") (PyPeers.pyList ["x"])).1 "a,b" rfl]
    decide
  · rw [(C1_env_precedence none (PyPeers.pyStr "c,d")).2.1 rfl "c,d" rfl]
    decide
  · exact (C1_env_precedence none (PyPeers.pyList ["x"])).2.2 rfl
      (fun s h => PyPeers.noConfusion h)

/-- C2: for any sequence of `step` calls on the shim, each observing the
optimizer's `local_epoch` (a counter, hence the non-decreasing chain
hypothesis starting at or above the initial `-1`): the shim's counter
starts at `-1`, is monotonically non-decreasing on every single call,
after the run equals (hence never exceeds) the last observed global
step, the forwarded scheduler steps are tagged with pairwise distinct
global-step values, and their number is exactly the total advancement
from `-1` to the last observed global step — one forwarded step per unit
of advancement, however many shim calls happen in between. -/
theorem C2_scheduler_shim (es : List Int)
    (hchain : List.Chain' (fun a b => a ≤ b) ((-1 : Int) :: es)) :
    HiveMindScheduler.initial.current_step = -1 ∧
    (∀ (s : HiveMindScheduler) (e : Int), s.current_step ≤ (s.step e).1.current_step) ∧
    (runScheduler HiveMindScheduler.initial es).1.current_step = es.getLastD (-1) ∧
    (∀ x ∈ (runScheduler HiveMindScheduler.initial es).2, -1 < x ∧ x ≤ es.getLastD (-1)) ∧
    (runScheduler HiveMindScheduler.initial es).2.Nodup ∧
    (runScheduler HiveMindScheduler.initial es).2.length = (es.getLastD (-1) - (-1)).toNat := by
  obtain ⟨h1, h2, h3, h4⟩ := runScheduler_props es (-1) hchain
  refine ⟨rfl, ?_, h1, h2, h3, h4⟩
  intro s e
  show s.current_step ≤ (stepLoop s.current_step e).1
  rw [stepLoop_fst]
  exact le_max_left _ _

theorem C2_scheduler_shim_witness :
    List.Chain' (fun a b => a ≤ b) ((-1 : Int) :: [0, 2, 2]) ∧
    (runScheduler HiveMindScheduler.initial [0, 2, 2]).1.current_step = 2 ∧
    (runScheduler HiveMindScheduler.initial [0, 2, 2]).2.Nodup ∧
    (runScheduler HiveMindScheduler.initial [0, 2, 2]).2.length = 3 := by
  have hch : List.Chain' (fun a b => a ≤ b) ((-1 : Int) :: [0, 2, 2]) := by
    simp only [List.chain'_cons, List.chain'_singleton, and_true]
    omega
  have h := C2_scheduler_shim [0, 2, 2] hch
  refine ⟨hch, ?_, h.2.2.2.2.1, ?_⟩
  · rw [h.2.2.1]
    decide
  · rw [h.2.2.2.2.2]
    decide

/-- C3 (counterexample): the claim lists `delay_grad_averaging` among
the flags whose presence (alone, without a `scheduler_fn`) triggers the
warning, but strategy.py line 168 computes `_require_scheduler_fn` from
`delay_optimizer_step or delay_state_averaging or offload_optimizer`
only.  With `delay_grad_averaging=True` as the sole flag and no
`scheduler_fn`, a full training run emits no scheduler-fn warning at
all (and does not halt). -/
theorem C3_counterexample :
    require_scheduler_fn_of none false true none = false ∧
    (run_batches (fresh_state [OptRef.torch 0] [] none
        (require_scheduler_fn_of none false true none) (some 1) false false)
      [some 1]).2.1.count Event.warnSchedulerFn = 0 ∧
    (run_batches (fresh_state [OptRef.torch 0] [] none
        (require_scheduler_fn_of none false true none) (some 1) false false)
      [some 1]).2.2 = none := by
  decide

/-- C3 (amended): if any of `delay_optimizer_step`,
`delay_state_averaging`, `offload_optimizer` is truthy
(`delay_grad_averaging` does not count) and no `scheduler_fn` was
supplied, a training run emits the non-fatal scheduler-fn warning
exactly once — on the first batch, not per step — and training is not
halted by it. -/
theorem C3_delay_flags_warning (dos : Option Bool) (dsa : Bool) (dga : Bool) (oo : Option Bool)
    (o : OptRef) (b : Nat) (bs : List (Option Nat))
    (hany : (pyTruthy dos || dsa || pyTruthy oo) = true) (hbs : bs ≠ []) :
    ((run_batches (fresh_state [o] [] none (require_scheduler_fn_of dos dsa dga oo) (some b)
        false false) bs).2.1.count Event.warnSchedulerFn = 1) ∧
    (run_batches (fresh_state [o] [] none (require_scheduler_fn_of dos dsa dga oo) (some b)
        false false) bs).2.2 = none := by
  have hreq : require_scheduler_fn_of dos dsa dga oo = true := hany
  rw [hreq]
  cases bs with
  | nil => exact absurd rfl hbs
  | cons b0 rest =>
    have key : run_batches (fresh_state [o] [] none true (some b) false false) (b0 :: rest)
        = ((run_batches
              { optimizers := [OptRef.hivemindOpt o], lr_scheduler_configs := [],
                scheduler_fn := none, require_scheduler_fn := true, batch_size := some b,
                reuse_grad_buffers := false, hivemind_initialized := true,
                opt := some (OptRef.hivemindOpt o), optimizer_zero_grad := some 0,
                optimizer_zero_grad_original := none, zero_grad_overridden := false } rest).1,
           [Event.warnSchedulerFn, Event.constructOptimizer, Event.loadStateFromPeers]
             ++ (run_batches
              { optimizers := [OptRef.hivemindOpt o], lr_scheduler_configs := [],
                scheduler_fn := none, require_scheduler_fn := true, batch_size := some b,
                reuse_grad_buffers := false, hivemind_initialized := true,
                opt := some (OptRef.hivemindOpt o), optimizer_zero_grad := some 0,
                optimizer_zero_grad_original := none, zero_grad_overridden := false } rest).2.1,
           (run_batches
              { optimizers := [OptRef.hivemindOpt o], lr_scheduler_configs := [],
                scheduler_fn := none, require_scheduler_fn := true, batch_size := some b,
                reuse_grad_buffers := false, hivemind_initialized := true,
                opt := some (OptRef.hivemindOpt o), optimizer_zero_grad := some 0,
                optimizer_zero_grad_original := none, zero_grad_overridden := false } rest).2.2) :=
      rfl
    rw [key, run_batches_of_initialized _ rfl rest]
    exact ⟨rfl, rfl⟩

theorem C3_delay_flags_warning_witness :
    ((pyTruthy none || true || pyTruthy none) = true) ∧
    ([some 1] ≠ ([] : List (Option Nat))) ∧
    ((run_batches (fresh_state [OptRef.torch 0] [] none
        (require_scheduler_fn_of none true false none) (some 1) false false)
      [some 1]).2.1.count Event.warnSchedulerFn = 1) := by
  have h := C3_delay_flags_warning none true false none (OptRef.torch 0) 1 [some 1]
    (by decide) (by decide)
  exact ⟨by decide, by decide, h.1⟩

/-- C4: with more than one optimizer registered, `_initialize_hivemind`
always raises the "only one optimizer" configuration error, with the
state untouched and no external call made — in particular before the
trainer's optimizer list is replaced and before the hivemind optimizer
is constructed. -/
theorem C4_only_one_optimizer (s : SState) (h : s.optimizers.length > 1) :
    (init_hivemind s).error = some InitError.onlyOneOptimizer ∧
    (init_hivemind s).state = s ∧
    (init_hivemind s).events = [] := by
  rw [init_hivemind, if_pos h]
  exact ⟨rfl, rfl, rfl⟩

theorem C4_only_one_optimizer_witness :
    (init_hivemind (fresh_state [OptRef.torch 0, OptRef.torch 1] [] none false (some 1)
        false false)).error = some InitError.onlyOneOptimizer ∧
    (init_hivemind (fresh_state [OptRef.torch 0, OptRef.torch 1] [] none false (some 1)
        false false)).state =
      fresh_state [OptRef.torch 0, OptRef.torch 1] [] none false (some 1) false false ∧
    (init_hivemind (fresh_state [OptRef.torch 0, OptRef.torch 1] [] none false (some 1)
        false false)).events = [] := by
  exact C4_only_one_optimizer
    (fresh_state [OptRef.torch 0, OptRef.torch 1] [] none false (some 1) false false)
    (by decide)

/-- C5: on the first per-batch hook, when no batch size was supplied and
inference from the batch fails, the hook raises the configuration error
asking for an explicit batch size and performs no external call: the
hivemind optimizer is not constructed (no event, `_opt` and the
optimizer list unchanged), so in particular `load_state_from_peers` is
never attempted. -/
theorem C5_batch_size_inference_failure (s : SState)
    (hfresh : s.hivemind_initialized = false) (hbs : s.batch_size = none) :
    (on_train_batch_start s none).2.2 = some RunError.batchSizeNotInferred ∧
    (on_train_batch_start s none).2.1 = [] ∧
    (on_train_batch_start s none).1.opt = s.opt ∧
    (on_train_batch_start s none).1.optimizers = s.optimizers := by
  simp [on_train_batch_start, hfresh, hbs]

theorem C5_batch_size_inference_failure_witness :
    (on_train_batch_start (fresh_state [OptRef.torch 0] [] none false none false false)
      none).2.2 = some RunError.batchSizeNotInferred ∧
    (on_train_batch_start (fresh_state [OptRef.torch 0] [] none false none false false)
      none).2.1 = [] := by
  have h := C5_batch_size_inference_failure
    (fresh_state [OptRef.torch 0] [] none false none false false) rfl rfl
  exact ⟨h.1, h.2.1⟩

/-- C6: the collective operations `reduce`, `all_gather` and `broadcast`
return their input unchanged for every input value, and `barrier`
returns leaving the strategy state untouched. -/
theorem C6_collectives_identity {α β : Type} (tensor : α) (obj : β) (s : SState) :
    HivemindStrategy.reduce tensor = tensor ∧
    HivemindStrategy.all_gather tensor = tensor ∧
    HivemindStrategy.broadcast obj = obj ∧
    HivemindStrategy.barrier s = s :=
  ⟨rfl, rfl, rfl, rfl⟩

/-- C7: teardown restores the saved original zero-grad hook whenever one
was saved; the emitted shutdown sequence is exactly
`[optShutdown, dhtShutdown]` when the optimizer was constructed (so the
optimizer shutdown strictly precedes the DHT shutdown) and
`[dhtShutdown]` otherwise; and composing with a successful
initialization under `reuse_grad_buffers`: initialization disables the
hook and teardown restores it to its original implementation. -/
theorem C7_teardown_order (s s0 : SState) (o : OptRef) (h : Nat) :
    (∀ orig, s.optimizer_zero_grad_original = some orig →
      (teardown s).1.optimizer_zero_grad = some orig) ∧
    ((teardown s).2 = if s.opt.isSome then [Event.optShutdown, Event.dhtShutdown]
      else [Event.dhtShutdown]) ∧
    (s0.optimizers = [o] → s0.reuse_grad_buffers = true → s0.optimizer_zero_grad = some h →
      (init_hivemind s0).error = none →
      (init_hivemind s0).state.optimizer_zero_grad = none ∧
      (teardown (init_hivemind s0).state).1.optimizer_zero_grad = some h) := by
  refine ⟨?_, ?_, ?_⟩
  · intro orig horig
    simp [teardown, horig]
  · cases horig : s.optimizer_zero_grad_original <;> cases hopt : s.opt <;>
      simp [teardown, horig, hopt]
  · intro hopt hreuse hhook herr
    simp only [init_hivemind, hopt] at herr ⊢
    by_cases hs : s0.scheduler_fn.isNone = true
    · by_cases hw : (wrap_schedulers s0.lr_scheduler_configs).2 = true
      · simp [hs, hw] at herr
      · simp only [Bool.not_eq_true] at hw
        simp [hs, hw, hreuse, hhook, disable_zero_grad, teardown] at herr ⊢
    · simp only [Bool.not_eq_true] at hs
      simp [hs, hreuse, hhook, disable_zero_grad, teardown] at herr ⊢

theorem C7_teardown_order_witness :
    (teardown (fresh_state [OptRef.torch 0] [] none false (some 1) true false)).2
      = [Event.dhtShutdown] ∧
    (init_hivemind (fresh_state [OptRef.torch 0] [] none false (some 1) true
        false)).state.optimizer_zero_grad = none ∧
    (teardown (init_hivemind (fresh_state [OptRef.torch 0] [] none false (some 1) true
        false)).state).1.optimizer_zero_grad = some 0 := by
  have h := C7_teardown_order
    (fresh_state [OptRef.torch 0] [] none false (some 1) true false)
    (fresh_state [OptRef.torch 0] [] none false (some 1) true false)
    (OptRef.torch 0) 0
  have h3 := h.2.2 rfl rfl rfl (by decide)
  exact ⟨by rw [h.2.1]; decide, h3.1, h3.2⟩

/-- C8: the DHT is always constructed with the raw `initial_peers`
constructor argument; the environment-derived list lands only in the
internal `_initial_peers` field; the DHT argument and the logging of the
"Other machines can connect" message do not depend on the environment
variable at all; and that message is logged if and only if the
constructor argument was `None`. -/
theorem C8_dht_gets_raw_peers (env : Option String) (p : PyPeers) :
    (strategy_ctor_peers env p).dht_initial_peers = p ∧
    (strategy_ctor_peers env p).strategy_initial_peers = parse_env_initial_peers env p ∧
    (∀ env2, (strategy_ctor_peers env2 p).dht_initial_peers
        = (strategy_ctor_peers env p).dht_initial_peers ∧
      (strategy_ctor_peers env2 p).logged_visible_addresses
        = (strategy_ctor_peers env p).logged_visible_addresses) ∧
    ((strategy_ctor_peers env p).logged_visible_addresses = true ↔ p = PyPeers.pyNone) := by
  refine ⟨rfl, rfl, fun env2 => ⟨rfl, rfl⟩, ?_⟩
  cases p <;> simp [strategy_ctor_peers]

/-- C9: when no scheduler factory was given, one-time optimizer
construction raises the `ValueError` as soon as some registered
scheduler is a `ReduceLROnPlateau` instance. -/
theorem C9_reduce_lr_on_plateau_rejected (s : SState) (o : OptRef)
    (hfn : s.scheduler_fn = none) (hopt : s.optimizers = [o])
    (hcfg : (s.lr_scheduler_configs.any fun c => c.isReduceLROnPlateau) = true) :
    (init_hivemind s).error = some InitError.reduceLROnPlateauUnsupported := by
  have hw : (wrap_schedulers s.lr_scheduler_configs).2 = true := by
    rw [wrap_schedulers_snd]
    exact hcfg
  simp [init_hivemind, hopt, hfn, hw]

theorem C9_reduce_lr_on_plateau_rejected_witness :
    (init_hivemind (fresh_state [OptRef.torch 0]
        [{ isReduceLROnPlateau := true, wrapped := false }] none false (some 1)
        false false)).error = some InitError.reduceLROnPlateauUnsupported := by
  exact C9_reduce_lr_on_plateau_rejected
    (fresh_state [OptRef.torch 0] [{ isReduceLROnPlateau := true, wrapped := false }] none
      false (some 1) false false)
    (OptRef.torch 0) rfl rfl (by decide)

/-- C10: the `averager_opts` value forwarded to the external optimizer
equals the caller-supplied `averager_opts` whenever `averaging_timeout`
is not `None` — with the default timeout `30.0`, a caller passing
`averager_opts=None` gets `None` forwarded — and the fallback
`{"request_timeout": 1.0}` is substituted exactly when
`averaging_timeout` is `None`: the branch is keyed on
`averaging_timeout`, not on `averager_opts`. -/
theorem C10_averager_opts_defaulting (t : Rat) (opts : Option (List (String × Rat))) :
    forwarded_averager_opts (some t) opts = opts ∧
    forwarded_averager_opts (some 30) none = none ∧
    (∀ o, forwarded_averager_opts none o = some [("request_timeout", 1)]) :=
  ⟨rfl, rfl, fun _ => rfl⟩

end LightningHivemind
